import Mathlib

/-!
Verification of the dnode message processor (src/dnode/dnode.go) against its
specification.  The Go code is embedded shallowly: maps become association
lists, the shared-by-reference `handlers` map becomes an index into an
explicit heap of handler maps (`World`), panics become an `Option String`
exit value, and the blocking receive loop is modelled over a finite prefix
of the transport's successive `Receive` results.
-/

namespace Kite

/-- A Go interface value passed as a handler or stored as a callback: either
the nil interface, a function value, or a non-function value.  Values are
identified by a number so that distinct functions can be told apart. -/
inductive GoValue where
  | nilValue : GoValue
  | funcValue : Nat → GoValue
  | nonFuncValue : Nat → GoValue
deriving DecidableEq

/-- Whether `reflect.ValueOf` of this value has kind `reflect.Func`
(dnode.go line 109). -/
def GoValue.isFunc : GoValue → Bool
  | .funcValue _ => true
  | _ => false

/-- The contents of a Go `map[string]reflect.Value` handler registry, as an
association list; `HandleFunc`'s duplicate check keeps its keys unique. -/
abbrev HandlersMap := List (String × GoValue)

/-- Go map indexing on a handlers map: the first entry with the given key. -/
def lookupHM (m : HandlersMap) (name : String) : Option GoValue :=
  (m.find? (fun p => p.1 == name)).map Prod.snd

/-- The `Dnode` struct (dnode.go lines 17-38).  The Go `handlers` field is a
map reference that `Copy` shares between instances, so it is modelled as an
index (`handlersRef`) into a `World` of allocated handler maps.  The
`callbacks` map is never shared between instances and is stored by value.
The four hook fields hold Go function values, modelled by identity
(`none` is Go `nil`). -/
structure Dnode where
  handlersRef : Nat
  callbacks : List (Nat × GoValue)
  seq : Nat
  transport : Nat
  WrapMethodArgs : Option Nat
  WrapCallbackArgs : Option Nat
  RunMethod : Option Nat
  RunCallback : Option Nat
deriving DecidableEq

/-- The heap of allocated handler maps; `Dnode.handlersRef` indexes it. -/
structure World where
  hmaps : List HandlersMap
deriving DecidableEq

/-- Read the handler map a reference points to. -/
def World.getMap (w : World) (r : Nat) : HandlersMap := ((w.hmaps)[r]?).getD []

/-- Overwrite the handler map a reference points to. -/
def World.setMap (w : World) (r : Nat) (m : HandlersMap) : World := ⟨(w.hmaps).set r m⟩

/-- The `New` constructor (dnode.go lines 75-81): allocate a fresh empty handler map and
start with an empty callback map, zero `seq`, and nil hooks. -/
def New (w : World) (tr : Nat) : World × Dnode :=
  (⟨(w.hmaps) ++ [[]]⟩,
   { handlersRef := (w.hmaps).length, callbacks := [], seq := 0, transport := tr,
     WrapMethodArgs := none, WrapCallbackArgs := none,
     RunMethod := none, RunCallback := none })

/-- The `Copy` operation (dnode.go lines 84-94): the same `handlers` map reference, a fresh
empty `callbacks` map, `seq` left at its zero value, the same four hooks,
and the new transport.  `Copy` only reads `d`; it writes neither `d` nor
the world. -/
def Copy (d : Dnode) (tr : Nat) : Dnode :=
  { handlersRef := d.handlersRef, callbacks := [], seq := 0, transport := tr,
    WrapMethodArgs := d.WrapMethodArgs, WrapCallbackArgs := d.WrapCallbackArgs,
    RunMethod := d.RunMethod, RunCallback := d.RunCallback }

/-- Handler lookup through the instance's map reference
(`d.handlers[method]`). -/
def lookupHandler (w : World) (d : Dnode) (name : String) : Option GoValue :=
  lookupHM (w.getMap d.handlersRef) name

/-- The `HandleFunc` registration (dnode.go lines 98-114), statement by statement.  A Go
`panic` is modelled as exiting with `some` panic message together with the
world as it stood at the panic site; since the only write
(`d.handlers[method] = val`, line 113) comes after every check, each panic
branch returns the incoming world unchanged. -/
def HandleFunc (w : World) (d : Dnode) (method : String) (handler : GoValue) :
    World × Option String :=
  if method = "" then (w, some ("dnode: invalid method " ++ method))
  else if handler = GoValue.nilValue then (w, some "dnode: nil handler")
  else if (lookupHM (w.getMap d.handlersRef) method).isSome then
    (w, some "dnode: handler already exists for method")
  else if handler.isFunc = false then (w, some "dnode: handler must be a func")
  else (w.setMap d.handlersRef (w.getMap d.handlersRef ++ [(method, handler)]), none)

/-- Go map indexing on the callback registry (`d.callbacks[id]`). -/
def lookupCallback (d : Dnode) (id : Nat) : Option GoValue :=
  ((d.callbacks).find? (fun p => p.1 == id)).map Prod.snd

/-- The `RemoveCallback` operation (dnode.go lines 138-140): Go `delete(d.callbacks, id)`,
which never fails.  Only the `callbacks` field is touched. -/
def RemoveCallback (d : Dnode) (id : Nat) : Dnode :=
  { d with callbacks := (d.callbacks).filter (fun p => p.1 != id) }

/-- Modelled from the spec: `registerCallback` itself is not among the
provided source files; only the `seq` field it increments is (dnode.go
lines 24-26, "Next callback number. Incremented atomically by
registerCallback()").  Per spec section 4.2 it assigns the next sequence
value and stores the invocable; the atomic increment-then-read yields
`seq + 1` as the fresh id. -/
def registerCallback (d : Dnode) (f : GoValue) : Dnode × Nat :=
  ({ d with seq := d.seq + 1, callbacks := (d.callbacks) ++ [(d.seq + 1, f)] },
   d.seq + 1)

/-- One observable event of `Run`'s loop body (dnode.go lines 117-134): a
successful `Receive`, the start and the completion of the synchronous
`processMessage` call (with its discarded outcome), or the failing
`Receive` that makes `Run` return. -/
inductive RunEvent where
  | receiveOk : List Nat → RunEvent
  | processBegin : List Nat → RunEvent
  | processEnd : List Nat → Bool → RunEvent
  | receiveErr : String → RunEvent
deriving DecidableEq

/-- The `Run` loop (dnode.go lines 117-134) over a finite prefix `results` of the
transport's successive `Receive` results, instrumented with the loop's
event trace.  `proc` gives the outcome of `processMessage` for a message;
the loop discards it (`d.processMessage(msg)` is a bare statement, line
132) and, per the comment on lines 124-131, runs the call on the loop's
own goroutine to completion before issuing the next `Receive`.  The result
is `none` when the prefix is exhausted with the loop still running, and
`some e` when a `Receive` returned the error `e` and `Run` returned it. -/
def Run (proc : List Nat → Bool) :
    List (Except String (List Nat)) → List RunEvent × Option String
  | [] => ([], none)
  | .error e :: _ => ([.receiveErr e], some e)
  | .ok m :: rest =>
    let t := Run proc rest
    (.receiveOk m :: .processBegin m :: .processEnd m (proc m) :: t.1, t.2)

/-- The `Receive` results of a Transport that yields the raw messages
`msgs` in order and then returns the error `e`. -/
def transportYields (msgs : List (List Nat)) (e : String) :
    List (Except String (List Nat)) :=
  msgs.map Except.ok ++ [Except.error e]

/-- Modelled from the spec: the `Path` type used by `Message.Callbacks` is
not among the provided source files.  Per spec section 3, a Path is an
ordered list of keys, each an object-field name or a sequence index. -/
inductive PathKey where
  | objKey : String → PathKey
  | arrIdx : Nat → PathKey
deriving DecidableEq

/-- A callback path: the ordered keys from the argument-tree root to a
callback-bearing position. -/
abbrev Path := List PathKey

/-- A JSON value, as far as the wire shape of the callbacks field needs. -/
inductive JsonValue where
  | num : Nat → JsonValue
  | str : String → JsonValue
  | arr : List JsonValue → JsonValue

/-- The `Message` struct (dnode.go lines 60-72): the `Method` interface
field (a string method name or a numeric callback id), the raw encoded
`Arguments` payload, `Callbacks map[string]Path` (struct comment: "Integer
map of callback paths in arguments"), and the unused `Links`. -/
structure Message where
  Method : JsonValue
  Arguments : List Nat
  Callbacks : List (String × Path)
  Links : List JsonValue

/-- JSON rendering of one path key: object keys as strings, sequence
indices as numbers. -/
def pathKeyToJson : PathKey → JsonValue
  | .objKey s => .str s
  | .arrIdx n => .num n

/-- JSON rendering of a message's callbacks object, per the field's type
`map[string]Path`: each key is the map's string key and each value is the
`Path`, serialized as the array of its keys. -/
def callbacksWire (m : Message) : List (String × JsonValue) :=
  (m.Callbacks).map (fun e => (e.1, JsonValue.arr (e.2.map pathKeyToJson)))

/-- The callbacks shape the claim asserts, in the spec's words: every value
of the wire callbacks mapping is a numeric callback id. -/
def callbacksValuesNumeric (m : Message) : Prop :=
  ∀ e ∈ callbacksWire m, ∃ n, e.2 = JsonValue.num n

/-- One callback-registry operation performed during an instance's
lifetime: registering a callback (a function value) or removing an id. -/
inductive CbOp where
  | register : Nat → CbOp
  | removeOp : Nat → CbOp
deriving DecidableEq

/-- Apply a lifetime of callback-registry operations to an instance,
collecting the ids that `registerCallback` assigned, in order. -/
def runOps (d : Dnode) : List CbOp → Dnode × List Nat
  | [] => (d, [])
  | CbOp.register f :: rest =>
    let r := registerCallback d (GoValue.funcValue f)
    let t := runOps r.1 rest
    (t.1, r.2 :: t.2)
  | CbOp.removeOp id :: rest => runOps (RemoveCallback d id) rest

/-- A sample world with one allocated handler map, used by the witnesses. -/
def w0 : World := ⟨[[("ping", GoValue.funcValue 5)]]⟩

/-- A sample instance whose handler map is the one allocated in `w0` and
whose callback registry holds the single id `3`. -/
def d0 : Dnode := ⟨0, [(3, GoValue.funcValue 1)], 3, 7, none, none, none, none⟩

/-- A sample wire message whose callbacks field records callback id 3 at
the path [0, "onTick"] inside the arguments. -/
def msg0 : Message :=
  { Method := JsonValue.str "ticker", Arguments := [],
    Callbacks := [("3", [PathKey.arrIdx 0, PathKey.objKey "onTick"])],
    Links := [] }

/-! ## Helper lemmas -/

lemma lookupHM_append_self (m : HandlersMap) (name : String) (v : GoValue)
    (h : lookupHM m name = none) : lookupHM (m ++ [(name, v)]) name = some v := by
  have hnone : m.find? (fun p => p.1 == name) = none := by
    cases hf : m.find? (fun p => p.1 == name) with
    | none => rfl
    | some p => simp [lookupHM, hf] at h
  simp [lookupHM, List.find?_append, hnone, List.find?_singleton]

lemma lookupHM_append_ne (m : HandlersMap) (name n2 : String) (v : GoValue)
    (h : n2 ≠ name) : lookupHM (m ++ [(name, v)]) n2 = lookupHM m n2 := by
  cases hf : m.find? (fun p => p.1 == n2) with
  | none =>
    simp [lookupHM, List.find?_append, hf, List.find?_singleton, Ne.symm h]
  | some p =>
    simp [lookupHM, List.find?_append, hf]

lemma getMap_setMap_self (w : World) (r : Nat) (m : HandlersMap)
    (h : r < (w.hmaps).length) : (w.setMap r m).getMap r = m := by
  simp [World.getMap, World.setMap, List.getElem?_set_self h]

lemma getMap_setMap_ne (w : World) (r r2 : Nat) (m : HandlersMap)
    (h : r2 ≠ r) : (w.setMap r m).getMap r2 = w.getMap r2 := by
  simp [World.getMap, World.setMap, List.getElem?_set_ne (Ne.symm h)]

lemma filter_ne_of_find?_none (l : List (Nat × GoValue)) (id : Nat)
    (h : l.find? (fun p => p.1 == id) = none) :
    l.filter (fun p => p.1 != id) = l := by
  rw [List.filter_eq_self]
  intro a ha
  have := List.find?_eq_none.mp h a ha
  simpa [bne] using this

lemma find?_filter_self_none (l : List (Nat × GoValue)) (id : Nat) :
    (l.filter (fun p => p.1 != id)).find? (fun p => p.1 == id) = none := by
  rw [List.find?_filter, List.find?_eq_none]
  intro x _
  simp [bne]

lemma find?_filter_other (l : List (Nat × GoValue)) (id j : Nat) (h : j ≠ id) :
    (l.filter (fun p => p.1 != id)).find? (fun p => p.1 == j) =
      l.find? (fun p => p.1 == j) := by
  rw [List.find?_filter]
  congr 1
  funext a
  by_cases ha : a.1 = j
  · simp [ha, bne, h]
  · simp [ha]

lemma runOps_ids_gt (ops : List CbOp) :
    ∀ d : Dnode, ∀ i ∈ (runOps d ops).2, d.seq < i := by
  induction ops with
  | nil => intro d i hi; simp [runOps] at hi
  | cons op rest ih =>
    intro d i hi
    cases op with
    | register f =>
      simp only [runOps, registerCallback, List.mem_cons] at hi
      rcases hi with h | h
      · omega
      · have := ih _ i h
        simp only at this
        omega
    | removeOp id2 =>
      simp only [runOps] at hi
      have := ih _ i hi
      simpa [RemoveCallback] using this

lemma runOps_ids_pairwise (ops : List CbOp) :
    ∀ d : Dnode, (runOps d ops).2.Pairwise (· < ·) := by
  induction ops with
  | nil => intro d; simp [runOps]
  | cons op rest ih =>
    intro d
    cases op with
    | register f =>
      simp only [runOps, registerCallback]
      refine List.pairwise_cons.mpr ⟨?_, ih _⟩
      intro b hb
      have := runOps_ids_gt rest _ b hb
      simpa using this
    | removeOp id2 =>
      simpa [runOps] using ih (RemoveCallback d id2)

lemma run_yields_cons (proc : List Nat → Bool) (m : List Nat)
    (msgs : List (List Nat)) (e : String) :
    Run proc (transportYields (m :: msgs) e) =
      (RunEvent.receiveOk m :: RunEvent.processBegin m ::
        RunEvent.processEnd m (proc m) :: (Run proc (transportYields msgs e)).1,
       (Run proc (transportYields msgs e)).2) := rfl

lemma run_yields_length (proc : List Nat → Bool) (msgs : List (List Nat))
    (e : String) :
    (Run proc (transportYields msgs e)).1.length = 3 * msgs.length + 1 := by
  induction msgs with
  | nil => simp [transportYields, Run]
  | cons m rest ih =>
    rw [run_yields_cons]
    simp only [List.length_cons, ih]
    ring

lemma run_yields_last (proc : List Nat → Bool) (msgs : List (List Nat))
    (e : String) :
    (Run proc (transportYields msgs e)).1[3 * msgs.length]? =
      some (RunEvent.receiveErr e) := by
  induction msgs with
  | nil => simp [transportYields, Run]
  | cons m rest ih =>
    rw [run_yields_cons]
    have h3 : 3 * (m :: rest).length = 3 * rest.length + 1 + 1 + 1 := by
      simp [List.length_cons]; ring
    rw [h3]
    simpa only [List.getElem?_cons_succ] using ih

lemma run_yields_events (proc : List Nat → Bool) (msgs : List (List Nat))
    (e : String) :
    ∀ k m, msgs[k]? = some m →
      (Run proc (transportYields msgs e)).1[3 * k]? =
          some (RunEvent.receiveOk m) ∧
      (Run proc (transportYields msgs e)).1[3 * k + 1]? =
          some (RunEvent.processBegin m) ∧
      (Run proc (transportYields msgs e)).1[3 * k + 2]? =
          some (RunEvent.processEnd m (proc m)) := by
  induction msgs with
  | nil => intro k m h; simp at h
  | cons m0 rest ih =>
    intro k m h
    rw [run_yields_cons]
    cases k with
    | zero =>
      simp only [List.getElem?_cons_zero, Option.some_inj] at h
      subst h
      refine ⟨by simp, by simp, by simp⟩
    | succ k =>
      obtain ⟨i1, i2, i3⟩ := ih k m (by simpa using h)
      have e1 : 3 * (k + 1) = 3 * k + 1 + 1 + 1 := by ring
      have e2 : 3 * (k + 1) + 1 = 3 * k + 1 + 1 + 1 + 1 := by ring
      have e3 : 3 * (k + 1) + 2 = 3 * k + 2 + 1 + 1 + 1 := by ring
      rw [e3, e2, e1]
      simpa only [List.getElem?_cons_succ] using ⟨i1, i2, i3⟩

lemma handleFunc_ok_iff (w : World) (d : Dnode) (method : String)
    (handler : GoValue) :
    (HandleFunc w d method handler).2 = none ↔
      (method ≠ "" ∧ handler ≠ GoValue.nilValue ∧
       (lookupHM (w.getMap d.handlersRef) method).isSome = false ∧
       handler.isFunc = true) := by
  unfold HandleFunc
  split_ifs with h1 h2 h3 h4 <;> simp_all

lemma handleFunc_ok_world (w : World) (d : Dnode) (method : String)
    (handler : GoValue) (h : (HandleFunc w d method handler).2 = none) :
    (HandleFunc w d method handler).1 =
      w.setMap d.handlersRef (w.getMap d.handlersRef ++ [(method, handler)]) := by
  unfold HandleFunc at h ⊢
  split_ifs at h ⊢
  simp_all

lemma handleFunc_panic_world (w : World) (d : Dnode) (method : String)
    (handler : GoValue) (h : (HandleFunc w d method handler).2.isSome = true) :
    (HandleFunc w d method handler).1 = w := by
  unfold HandleFunc at h ⊢
  split_ifs at h ⊢ <;> simp_all

lemma handleFunc_ok_lookup (w : World) (d : Dnode) (method : String)
    (handler : GoValue) (href : d.handlersRef < (w.hmaps).length)
    (h : (HandleFunc w d method handler).2 = none) :
    lookupHM ((HandleFunc w d method handler).1.getMap d.handlersRef) method =
      some handler := by
  have hok := (handleFunc_ok_iff w d method handler).mp h
  have hnone : lookupHM (w.getMap d.handlersRef) method = none := by
    have h3 := hok.2.2.1
    cases hx : lookupHM (w.getMap d.handlersRef) method with
    | none => rfl
    | some p => rw [hx] at h3; simp at h3
  rw [handleFunc_ok_world w d method handler h, getMap_setMap_self _ _ _ href]
  exact lookupHM_append_self _ _ _ hnone

/-! ## Claims -/

/-- C1: for a Transport that yields the raw messages `msgs` in order before
returning the error `e`, `Run`'s event trace places, for the k-th message
m, its successful `Receive` at index 3k, the start of `processMessage` at
3k + 1, and its completion at 3k + 2; the next `Receive` (of message k + 1,
or the failing one at 3·length) comes at index 3(k + 1), strictly later,
and the trace has no other events (length 3·length + 1).  So messages are
processed one at a time on the loop's own execution context, each
processing started and completed before the next `Receive` is issued, and
invocations begin in arrival order. -/
theorem Run_processes_in_order (proc : List Nat → Bool) (msgs : List (List Nat))
    (e : String) (k : Nat) (m : List Nat) (h : msgs[k]? = some m) :
    (Run proc (transportYields msgs e)).1[3 * k]? =
        some (RunEvent.receiveOk m) ∧
    (Run proc (transportYields msgs e)).1[3 * k + 1]? =
        some (RunEvent.processBegin m) ∧
    (Run proc (transportYields msgs e)).1[3 * k + 2]? =
        some (RunEvent.processEnd m (proc m)) ∧
    (Run proc (transportYields msgs e)).1[3 * msgs.length]? =
        some (RunEvent.receiveErr e) ∧
    (Run proc (transportYields msgs e)).1.length = 3 * msgs.length + 1 := by
  obtain ⟨a, b, c⟩ := run_yields_events proc msgs e k m h
  exact ⟨a, b, c, run_yields_last proc msgs e, run_yields_length proc msgs e⟩

/-- Witness for C1 at a two-message transport: the second message's
receive, processing start, and processing completion sit at indices 3, 4,
and 5, the failing receive at index 6, and the trace has length 7. -/
theorem Run_processes_in_order_witness :
    ([[1], [2]] : List (List Nat))[1]? = some [2] ∧
    ((Run (fun _ => true) (transportYields [[1], [2]] "eof")).1[3 * 1]? =
        some (RunEvent.receiveOk [2]) ∧
     (Run (fun _ => true) (transportYields [[1], [2]] "eof")).1[3 * 1 + 1]? =
        some (RunEvent.processBegin [2]) ∧
     (Run (fun _ => true) (transportYields [[1], [2]] "eof")).1[3 * 1 + 2]? =
        some (RunEvent.processEnd [2] true) ∧
     (Run (fun _ => true) (transportYields [[1], [2]] "eof")).1[3 * 2]? =
        some (RunEvent.receiveErr "eof") ∧
     (Run (fun _ => true) (transportYields [[1], [2]] "eof")).1.length =
        3 * 2 + 1) :=
  ⟨by decide,
   Run_processes_in_order (fun _ => true) [[1], [2]] "eof" 1 [2] (by decide)⟩

/-- C2: `Run` returns the value `e` exactly when some `Receive` returned
the error `e` with every earlier `Receive` succeeding, i.e. `Run` returns
if and only if `Receive` fails, and it returns exactly that error.
Moreover the returned value does not depend on the outcome of processing
(`d.processMessage(msg)` is a bare statement whose result the loop
discards), and within any prefix of only successful receives `Run` does
not return. -/
theorem Run_returns_exactly_the_receive_error (p q : List Nat → Bool)
    (results : List (Except String (List Nat))) (e : String) :
    ((Run p results).2 = some e ↔
      ∃ k : Nat, results[k]? = some (Except.error e) ∧
        ∀ j : Nat, j < k →
          ∃ m : List Nat, results[j]? = some (Except.ok m)) ∧
    (Run p results).2 = (Run q results).2 := by
  constructor
  · induction results with
    | nil => simp [Run]
    | cons r rest ih =>
      cases r with
      | error e2 =>
        simp only [Run]
        constructor
        · intro h
          have he : e2 = e := by simpa using h
          subst he
          exact ⟨0, by simp, by intro j hj; omega⟩
        · rintro ⟨k, hk, hj⟩
          cases k with
          | zero =>
            simp only [List.getElem?_cons_zero, Option.some_inj,
              Except.error.injEq] at hk
            simp [hk]
          | succ k =>
            obtain ⟨m, hm⟩ := hj 0 (Nat.succ_pos k)
            simp at hm
      | ok m0 =>
        simp only [Run]
        constructor
        · intro h
          obtain ⟨k, hk, hj⟩ := ih.mp h
          refine ⟨k + 1, by simpa using hk, ?_⟩
          intro j hj2
          cases j with
          | zero => exact ⟨m0, by simp⟩
          | succ j =>
            obtain ⟨m, hm⟩ := hj j (by omega)
            exact ⟨m, by simpa using hm⟩
        · rintro ⟨k, hk, hj⟩
          cases k with
          | zero => simp at hk
          | succ k =>
            apply ih.mpr
            refine ⟨k, by simpa using hk, ?_⟩
            intro j hj2
            obtain ⟨m, hm⟩ := hj (j + 1) (by omega)
            exact ⟨m, by simpa using hm⟩
  · induction results with
    | nil => rfl
    | cons r rest ih =>
      cases r with
      | error e2 => rfl
      | ok m0 => simpa [Run] using ih

/-- Witness for C2: on a transport yielding one message and then the error
"closed", `Run` returns exactly "closed", independently of the processing
outcome. -/
theorem Run_returns_exactly_the_receive_error_witness :
    (Run (fun _ => true) ([Except.ok [5], Except.error "closed"] : List (Except String (List Nat)))).2 =
        some "closed" ∧
    (Run (fun _ => true) ([Except.ok [5], Except.error "closed"] : List (Except String (List Nat)))).2 =
      (Run (fun _ => false) ([Except.ok [5], Except.error "closed"] : List (Except String (List Nat)))).2 :=
  ⟨(Run_returns_exactly_the_receive_error (fun _ => true) (fun _ => false)
      ([Except.ok [5], Except.error "closed"] : List (Except String (List Nat))) "closed").1.mpr
    ⟨1, rfl, fun j hj => by
      interval_cases j
      exact ⟨[5], rfl⟩⟩,
   (Run_returns_exactly_the_receive_error (fun _ => true) (fun _ => false)
      ([Except.ok [5], Except.error "closed"] : List (Except String (List Nat))) "closed").2⟩

/-- C5 counterexample: the claim asserts that in every wire message the
callbacks field maps serialized path strings to numeric callback ids, but
in the source the field is `Callbacks map[string]Path`: at the concrete
message `msg0` the value stored under the key "3" is a Path, which
serializes as an array, not as a numeric id. -/
theorem Message_callbacks_not_numeric_ids : ¬ callbacksValuesNumeric msg0 := by
  intro hs
  obtain ⟨n, hn⟩ := hs ("3", JsonValue.arr [JsonValue.num 0, JsonValue.str "onTick"])
    (by simp [callbacksWire, msg0, pathKeyToJson])
  simp at hn

/-- C5 (amended): in every wire Message, the callbacks field is a mapping
whose keys are strings (the numeric callback ids, serialized as strings,
per the struct comment "Integer map of callback paths in arguments") and
whose values are Paths — the path from the argument-tree root to the
callback-bearing position — serialized as arrays of keys; in particular no
value is a numeric id. -/
theorem Message_callbacks_values_are_paths (m : Message)
    (eVal : String × JsonValue) (h : eVal ∈ callbacksWire m) :
    ∃ p : Path, (eVal.1, p) ∈ m.Callbacks ∧
      eVal.2 = JsonValue.arr (p.map pathKeyToJson) ∧
      ∀ n, eVal.2 ≠ JsonValue.num n := by
  simp only [callbacksWire, List.mem_map] at h
  obtain ⟨a, ha, rfl⟩ := h
  exact ⟨a.2, by simpa using ha, rfl, by intro n h2; simp at h2⟩

/-- Witness for C5 (amended) at the concrete message `msg0`: the wire entry
under key "3" is the serialized path [0, "onTick"], not a number. -/
theorem Message_callbacks_values_are_paths_witness :
    (("3", JsonValue.arr [JsonValue.num 0, JsonValue.str "onTick"]) ∈
        callbacksWire msg0) ∧
    (∃ p : Path, ("3", p) ∈ msg0.Callbacks ∧
      JsonValue.arr [JsonValue.num 0, JsonValue.str "onTick"] =
        JsonValue.arr (p.map pathKeyToJson) ∧
      ∀ n, JsonValue.arr [JsonValue.num 0, JsonValue.str "onTick"] ≠
        JsonValue.num n) :=
  ⟨by simp [callbacksWire, msg0, pathKeyToJson],
   Message_callbacks_values_are_paths msg0
     ("3", JsonValue.arr [JsonValue.num 0, JsonValue.str "onTick"])
     (by simp [callbacksWire, msg0, pathKeyToJson])⟩

/-- C3: `HandleFunc` panics exactly when the method name is empty, the
handler is the nil interface, the handler is not a function value, or the
name is already registered on the instance; in every other case it
registers the handler under the name, so that a subsequent lookup of the
name finds it. -/
theorem HandleFunc_panics_iff (w : World) (d : Dnode) (method : String)
    (handler : GoValue) (href : d.handlersRef < (w.hmaps).length) :
    ((HandleFunc w d method handler).2.isSome = true ↔
      (method = "" ∨ handler = GoValue.nilValue ∨ handler.isFunc = false ∨
        (lookupHandler w d method).isSome = true)) ∧
    ((HandleFunc w d method handler).2 = none →
      lookupHandler (HandleFunc w d method handler).1 d method = some handler) := by
  constructor
  · unfold HandleFunc lookupHandler
    split_ifs with h1 h2 h3 h4 <;> simp_all
  · intro h
    exact handleFunc_ok_lookup w d method handler href h

/-- Witness for C3: in the sample world, registering a fresh function
handler under "echo" does not panic and is afterwards found by lookup. -/
theorem HandleFunc_panics_iff_witness :
    d0.handlersRef < (w0.hmaps).length ∧
    (((HandleFunc w0 d0 "echo" (GoValue.funcValue 9)).2.isSome = true ↔
      ("echo" = "" ∨ GoValue.funcValue 9 = GoValue.nilValue ∨
        (GoValue.funcValue 9).isFunc = false ∨
        (lookupHandler w0 d0 "echo").isSome = true)) ∧
    ((HandleFunc w0 d0 "echo" (GoValue.funcValue 9)).2 = none →
      lookupHandler (HandleFunc w0 d0 "echo" (GoValue.funcValue 9)).1 d0 "echo" =
        some (GoValue.funcValue 9))) :=
  ⟨by decide, HandleFunc_panics_iff w0 d0 "echo" (GoValue.funcValue 9) (by decide)⟩

/-- C4: `Copy` returns an instance on which every method registered on the
source still looks up to the same handler value, whose callback registry
is empty (no id resolves on the copy), whose sequence counter is at its
initial value 0, whose four hooks equal the source's, and which is bound
to the new transport.  The source instance is unchanged: `Copy` only reads
`d` and does not touch the world of handler maps. -/
theorem Copy_spec (w : World) (d : Dnode) (t2 : Nat) :
    (∀ n h0, lookupHandler w d n = some h0 →
      lookupHandler w (Copy d t2) n = some h0) ∧
    (Copy d t2).callbacks = [] ∧
    (∀ id, lookupCallback (Copy d t2) id = none) ∧
    (Copy d t2).seq = 0 ∧
    (Copy d t2).transport = t2 ∧
    (Copy d t2).WrapMethodArgs = d.WrapMethodArgs ∧
    (Copy d t2).WrapCallbackArgs = d.WrapCallbackArgs ∧
    (Copy d t2).RunMethod = d.RunMethod ∧
    (Copy d t2).RunCallback = d.RunCallback :=
  ⟨fun _ _ h => h, rfl, fun _ => rfl, rfl, rfl, rfl, rfl, rfl, rfl⟩

/-- Witness for C4: the copy of `d0` onto transport 42 still resolves
"ping", does not resolve the callback id 3 that is valid on `d0`, and
starts with sequence counter 0. -/
theorem Copy_spec_witness :
    lookupHandler w0 d0 "ping" = some (GoValue.funcValue 5) ∧
    lookupHandler w0 (Copy d0 42) "ping" = some (GoValue.funcValue 5) ∧
    lookupCallback d0 3 = some (GoValue.funcValue 1) ∧
    lookupCallback (Copy d0 42) 3 = none ∧
    (Copy d0 42).seq = 0 ∧
    (Copy d0 42).transport = 42 :=
  ⟨by decide,
   (Copy_spec w0 d0 42).1 "ping" (GoValue.funcValue 5) (by decide),
   by decide,
   (Copy_spec w0 d0 42).2.2.1 3,
   (Copy_spec w0 d0 42).2.2.2.1,
   (Copy_spec w0 d0 42).2.2.2.2.1⟩

/-- C8: `HandleFunc` is atomic with respect to failure: whenever it panics,
the whole world of handler maps is exactly as before the call (the only
write comes after every check); on success, the instance's handler map
gains exactly the one new entry at the end, every other allocated handler
map is untouched, and lookups of every other name are unchanged.  The
`Dnode` record itself is never written: `HandleFunc` writes only through
the `handlersRef` reference. -/
theorem HandleFunc_atomic (w : World) (d : Dnode) (method : String)
    (handler : GoValue) (href : d.handlersRef < (w.hmaps).length) :
    ((HandleFunc w d method handler).2.isSome = true →
      (HandleFunc w d method handler).1 = w) ∧
    ((HandleFunc w d method handler).2 = none →
      ((HandleFunc w d method handler).1.getMap d.handlersRef =
          w.getMap d.handlersRef ++ [(method, handler)]) ∧
      (∀ r, r ≠ d.handlersRef →
        (HandleFunc w d method handler).1.getMap r = w.getMap r) ∧
      (∀ n2, n2 ≠ method →
        lookupHandler (HandleFunc w d method handler).1 d n2 =
          lookupHandler w d n2)) := by
  refine ⟨handleFunc_panic_world w d method handler, ?_⟩
  intro h
  have hw := handleFunc_ok_world w d method handler h
  refine ⟨?_, ?_, ?_⟩
  · rw [hw, getMap_setMap_self _ _ _ href]
  · intro r hr
    rw [hw, getMap_setMap_ne _ _ _ _ hr]
  · intro n2 hn
    show lookupHM ((HandleFunc w d method handler).1.getMap d.handlersRef) n2 = _
    rw [hw, getMap_setMap_self _ _ _ href, lookupHM_append_ne _ _ _ _ hn]
    rfl

/-- Witness for C8: a duplicate registration of "ping" on the sample world
panics and leaves the world exactly as it was; a fresh registration of
"echo" leaves the lookup of "ping" unchanged. -/
theorem HandleFunc_atomic_witness :
    (HandleFunc w0 d0 "ping" (GoValue.funcValue 9)).2.isSome = true ∧
    (HandleFunc w0 d0 "ping" (GoValue.funcValue 9)).1 = w0 ∧
    (HandleFunc w0 d0 "echo" (GoValue.funcValue 9)).2 = none ∧
    lookupHandler (HandleFunc w0 d0 "echo" (GoValue.funcValue 9)).1 d0 "ping" =
      lookupHandler w0 d0 "ping" :=
  ⟨by decide,
   (HandleFunc_atomic w0 d0 "ping" (GoValue.funcValue 9) (by decide)).1 (by decide),
   by decide,
   ((HandleFunc_atomic w0 d0 "echo" (GoValue.funcValue 9) (by decide)).2
     (by decide)).2.2 "ping" (by decide)⟩

/-- C9: `Copy` shares the source's handler registry by reference: a handler
registered through the copy becomes visible to lookups on the source, a
handler registered through the source becomes visible to lookups on the
copy, and registering on the copy a name already registered on the source
panics as a duplicate. -/
theorem Copy_shares_handler_registry (w : World) (d : Dnode) (t2 : Nat)
    (n : String) (hv : GoValue) (href : d.handlersRef < (w.hmaps).length) :
    ((HandleFunc w (Copy d t2) n hv).2 = none →
      lookupHandler (HandleFunc w (Copy d t2) n hv).1 d n = some hv) ∧
    ((HandleFunc w d n hv).2 = none →
      lookupHandler (HandleFunc w d n hv).1 (Copy d t2) n = some hv) ∧
    (∀ h0, lookupHandler w d n = some h0 → n ≠ "" → hv ≠ GoValue.nilValue →
      (HandleFunc w (Copy d t2) n hv).2 =
        some "dnode: handler already exists for method") := by
  refine ⟨?_, ?_, ?_⟩
  · intro h
    exact handleFunc_ok_lookup w (Copy d t2) n hv href h
  · intro h
    exact handleFunc_ok_lookup w d n hv href h
  · intro h0 hl hn hnil
    have hsome : lookupHM (w.getMap (Copy d t2).handlersRef) n = some h0 := hl
    simp [HandleFunc, hn, hnil, hsome]

/-- Witness for C9: registering "echo" through the copy of `d0` makes it
visible on `d0`, and registering "ping" (already on `d0`) through the copy
panics with the duplicate-handler message. -/
theorem Copy_shares_handler_registry_witness :
    (HandleFunc w0 (Copy d0 42) "echo" (GoValue.funcValue 9)).2 = none ∧
    lookupHandler (HandleFunc w0 (Copy d0 42) "echo" (GoValue.funcValue 9)).1
      d0 "echo" = some (GoValue.funcValue 9) ∧
    (HandleFunc w0 (Copy d0 42) "ping" (GoValue.funcValue 9)).2 =
      some "dnode: handler already exists for method" :=
  ⟨by decide,
   (Copy_shares_handler_registry w0 d0 42 "echo" (GoValue.funcValue 9)
     (by decide)).1 (by decide),
   (Copy_shares_handler_registry w0 d0 42 "ping" (GoValue.funcValue 9)
     (by decide)).2.2 (GoValue.funcValue 5) (by decide) (by decide) (by decide)⟩

/-- C6: for every id, `RemoveCallback` leaves the registry unchanged when
the id is absent, removes exactly the entry with that id when present
(the id no longer resolves, every other id resolves as before), and is
idempotent: removing twice equals removing once.  `RemoveCallback` is a
total function (Go `delete` never panics). -/
theorem RemoveCallback_spec (d : Dnode) (id : Nat) :
    (lookupCallback d id = none → RemoveCallback d id = d) ∧
    lookupCallback (RemoveCallback d id) id = none ∧
    (∀ j, j ≠ id → lookupCallback (RemoveCallback d id) j = lookupCallback d j) ∧
    RemoveCallback (RemoveCallback d id) id = RemoveCallback d id := by
  refine ⟨?_, ?_, ?_, ?_⟩
  · intro h
    have hn : (d.callbacks).find? (fun p => p.1 == id) = none := by
      cases hf : (d.callbacks).find? (fun p => p.1 == id) with
      | none => rfl
      | some p => simp [lookupCallback, hf] at h
    simp [RemoveCallback, filter_ne_of_find?_none _ _ hn]
  · simp [lookupCallback, RemoveCallback, find?_filter_self_none]
  · intro j hj
    simp [lookupCallback, RemoveCallback, find?_filter_other _ _ _ hj]
  · simp [RemoveCallback, List.filter_filter]

/-- Witness for C6 at a concrete registry: id 9 is absent from `d0` and its
removal is the identity; id 3 is present, is gone after one removal, and a
second removal changes nothing. -/
theorem RemoveCallback_spec_witness :
    lookupCallback d0 9 = none ∧ RemoveCallback d0 9 = d0 ∧
    lookupCallback (RemoveCallback d0 3) 3 = none ∧
    RemoveCallback (RemoveCallback d0 3) 3 = RemoveCallback d0 3 :=
  ⟨by decide, (RemoveCallback_spec d0 9).1 (by decide),
   (RemoveCallback_spec d0 3).2.1, (RemoveCallback_spec d0 3).2.2.2⟩

/-- C7: over any lifetime of interleaved `registerCallback` and
`RemoveCallback` operations, the numeric ids assigned by
`registerCallback`, in order of assignment, are strictly increasing, and
hence no id is ever reused — even after previously issued ids have been
removed. -/
theorem registerCallback_ids_strictly_increasing (d : Dnode) (ops : List CbOp) :
    (runOps d ops).2.Pairwise (· < ·) ∧ (runOps d ops).2.Nodup := by
  refine ⟨runOps_ids_pairwise ops d, ?_⟩
  exact (runOps_ids_pairwise ops d).imp (fun h => Nat.ne_of_lt h)

/-- Witness for C7: a concrete lifetime that registers, removes the issued
id, and registers twice more still yields pairwise-increasing, duplicate-free
ids. -/
theorem registerCallback_ids_strictly_increasing_witness :
    (runOps d0 [CbOp.register 1, CbOp.removeOp 4,
      CbOp.register 2, CbOp.register 3]).2.Pairwise (· < ·) ∧
    (runOps d0 [CbOp.register 1, CbOp.removeOp 4,
      CbOp.register 2, CbOp.register 3]).2.Nodup :=
  registerCallback_ids_strictly_increasing d0
    [CbOp.register 1, CbOp.removeOp 4, CbOp.register 2, CbOp.register 3]

/-- C10: `RemoveCallback` mutates at most the `callbacks` map: the handler
registry (reference and lookups through any world), the sequence counter,
the bound transport, and the four hook fields are all unchanged. -/
theorem RemoveCallback_frame (d : Dnode) (id : Nat) :
    (RemoveCallback d id).handlersRef = d.handlersRef ∧
    (RemoveCallback d id).seq = d.seq ∧
    (RemoveCallback d id).transport = d.transport ∧
    (RemoveCallback d id).WrapMethodArgs = d.WrapMethodArgs ∧
    (RemoveCallback d id).WrapCallbackArgs = d.WrapCallbackArgs ∧
    (RemoveCallback d id).RunMethod = d.RunMethod ∧
    (RemoveCallback d id).RunCallback = d.RunCallback ∧
    (∀ w n, lookupHandler w (RemoveCallback d id) n = lookupHandler w d n) :=
  ⟨rfl, rfl, rfl, rfl, rfl, rfl, rfl, fun _ _ => rfl⟩

end Kite
